import Mathlib

/-!
Shallow embedding of MikuCffHelper's CFG-simplification passes
(`passes/mid/clearPass.py`) and proofs about them.

The Python code mutates a Binary Ninja `MediumLevelILFunction` in place.
We model the IL function as a list of instructions indexed by position
(`instr_index`); basic blocks are derived from the instruction list as the
maximal contiguous runs ending at a terminator, matching the spec's data
model ("every block has >= 1 instruction and its last instruction is a
terminator").  `replace_expr` is `List.set` at the instruction's index,
`append` extends the list, a `MediumLevelILLabel` is a plain index, and
`mark_label` captures the current append cursor (the list's length).
`finalize` / `generate_ssa_form` re-derive metadata; since blocks are
derived on the fly here, they are modelled as bumping a generation counter
(per the spec they recompute boundaries/indices and def-use info but do not
prune dead blocks: "blocks become unreachable ... but are not actively
removed by this core").  `log_error` bumps an error-log counter.
Python exceptions and crashes (attribute errors on `None`) are modelled as
`Option.none`; unbounded recursion is modelled with explicit fuel, with
`none` meaning the recursion did not return at that depth.
-/

/-- MLIL instruction, a tagged variant over the forms `clearPass.py`
dispatches on: literal constant, variable, assignment (an example of the
non-terminator value-producing forms), unconditional jump (`MediumLevelILGoto`),
conditional branch (`MediumLevelILIf`), and return (`MediumLevelILRet`). -/
inductive Expr where
  | const : Int → Expr
  | var : Nat → Expr
  | setVar : Nat → Expr → Expr
  | goto : Nat → Expr
  | ifExpr : Expr → Nat → Nat → Expr
  | ret : Expr
deriving DecidableEq, Repr

/-- An instruction is a terminator when it is a jump, a branch or a return. -/
def Expr.isTerminator : Expr → Bool
  | .goto _ => true
  | .ifExpr _ _ _ => true
  | .ret => true
  | _ => false

/-- `isinstance(x, MediumLevelILGoto) or isinstance(x, MediumLevelILIf)`:
the predecessor-terminator check of `merge_block`. -/
def Expr.isJumpOrBranch : Expr → Bool
  | .goto _ => true
  | .ifExpr _ _ _ => true
  | _ => false

/-- `isinstance(x, MediumLevelILGoto) or isinstance(x, MediumLevelILRet)`:
the successor-terminator check of `pass_merge_block`. -/
def Expr.isJumpOrRet : Expr → Bool
  | .goto _ => true
  | .ret => true
  | _ => false

/-- `mlil.copy_expr(x, ...)`: a deep copy of the expression tree, attributed
to a new source location.  The copy is structurally equal to the original
but rebuilt node by node (it never aliases, so the original is not mutated
through it). -/
def copyExpr : Expr → Expr
  | .const c => .const c
  | .var v => .var v
  | .setVar v e => .setVar v (copyExpr e)
  | .goto d => .goto d
  | .ifExpr c t f => .ifExpr (copyExpr c) t f
  | .ret => .ret

/-- The state of a `MediumLevelILFunction`: its instruction list, a
generation counter bumped by `finalize` / `generate_ssa_form` (modelling
index/metadata re-derivation), and a counter of `log_error` calls. -/
structure MLIL where
  instrs : List Expr
  gen : Nat
  errLog : Nat
deriving DecidableEq, Repr

/-- `mlil.finalize(); mlil.generate_ssa_form()`: recompute block boundaries,
instruction indices and def-use metadata.  Blocks are derived from `instrs`
on demand here, so the observable effect is the generation bump; dead
instructions are not pruned (spec: pruning is an external concern). -/
def finalizeRegen (m : MLIL) : MLIL :=
  { m with gen := m.gen + 1 }

/-- `mlil.replace_expr(i, e)`: replace the instruction at index `i`. -/
def replaceInstr (m : MLIL) (i : Nat) (e : Expr) : MLIL :=
  { m with instrs := m.instrs.set i e }

/-- `log_error(...)`: diagnostics sink, modelled as a counter bump. -/
def logError (m : MLIL) : MLIL :=
  { m with errLog := m.errLog + 1 }

/-- A basic block: a contiguous run of instructions paired with their
`instr_index` values. -/
abbrev Block := List (Nat × Expr)

/-- Split an indexed instruction list into basic blocks: each terminator
ends the current block (`acc` holds the current block, reversed). -/
def splitBlocksAux : List (Nat × Expr) → List (Nat × Expr) → List Block
  | acc, [] => if acc.isEmpty then [] else [acc.reverse]
  | acc, (i, e) :: rest =>
      if e.isTerminator then
        (acc.reverse ++ [(i, e)]) :: splitBlocksAux [] rest
      else
        splitBlocksAux ((i, e) :: acc) rest

/-- `mlil.basic_blocks`: the maximal contiguous runs of instructions each
ending at a terminator. -/
def basicBlocks (il : List Expr) : List Block :=
  splitBlocksAux [] il.enum

/-- Number of basic blocks, `len(mlil.basic_blocks)`. -/
def numBlocks (m : MLIL) : Nat :=
  (basicBlocks m.instrs).length

/-- `block.start`: the `instr_index` of the block's first instruction. -/
def blockStart (b : Block) : Nat :=
  (b.headD (0, Expr.ret)).1

/-- `block[-1]`: the block's terminator, with its index. -/
def blockLast (b : Block) : Nat × Expr :=
  b.getLastD (0, Expr.ret)

/-- `mlil.get_basic_block_at(idx)`: the basic block containing the
instruction at `idx`, if any. -/
def getBasicBlockAt (il : List Expr) (idx : Nat) : Option Block :=
  (basicBlocks il).find? fun b => b.any fun p => p.1 = idx

/-- Modelled from the spec: `CFGAnalyzer.MLIL_get_incoming_blocks` (in the
repository's `utils`, not under `src/`) — "given a block's entry instruction
index, return the set of blocks whose terminator can transfer control to it",
computed "by scanning terminators process-wide". -/
def incomingBlocks (il : List Expr) (idx : Nat) : List Block :=
  (basicBlocks il).filter fun b =>
    match (blockLast b).2 with
    | .goto d => d = idx
    | .ifExpr _ t f => t = idx || f = idx
    | _ => false

/-- The recursive jump-chain chase shared by `optimize_goto`
(`pass_clear_goto`) and `get_final_target` (`pass_clear_if`): starting from
index `idx`, follow `goto` instructions until a non-goto instruction is
reached, returning its index and the instruction itself.  The Python
recursion is unbounded; `fuel` makes it total, with `none` meaning the
recursion has not returned within `fuel` steps (for `fuel ≥ il.length` a
`none` can only come from a cyclic chain or an invalid index, on which the
Python code never returns). -/
def chaseGoto (il : List Expr) : Nat → Nat → Option (Nat × Expr)
  | 0, _ => none
  | fuel + 1, idx =>
      match il.get? idx with
      | some (.goto d) => chaseGoto il fuel d
      | some e => some (idx, e)
      | none => none

/-- Per-block action of `pass_clear_const_if`: if the block's terminator is
a conditional branch whose condition is a literal constant, fold constant
`1` to a jump to the true arm and constant `0` to a jump to the false arm;
any other constant, a non-constant condition, or a non-branch terminator is
left unchanged (`continue`). -/
def foldConstIf (m : MLIL) (bb : Block) : MLIL × Bool :=
  match blockLast bb with
  | (i, .ifExpr (.const c) t f) =>
      if c = 1 then (replaceInstr m i (.goto t), true)
      else if c = 0 then (replaceInstr m i (.goto f), true)
      else (m, false)
  | _ => (m, false)

/-- One scan of `pass_clear_const_if` over a snapshot of the block list,
threading the mutated state and latching the `updated` flag. -/
def scanConstIfAux : MLIL → Bool → List Block → MLIL × Bool
  | m, upd, [] => (m, upd)
  | m, upd, bb :: rest =>
      let (m', u) := foldConstIf m bb
      scanConstIfAux m' (upd || u) rest

/-- One full scan of `pass_clear_const_if` (`for bb in mlil.basic_blocks`). -/
def scanConstIf (m : MLIL) : Option (MLIL × Bool) :=
  some (scanConstIfAux m false (basicBlocks m.instrs))

/-- Per-block action of `pass_clear_goto`: if the block's terminator is an
unconditional jump, chase the jump chain from its target (`optimize_goto`);
if the chain's sink differs from the current target, replace the terminator
with a jump straight to the sink, otherwise `continue`.  A `none` chase
models the source's unbounded recursion failing to return (cyclic chain). -/
def foldClearGoto (m : MLIL) (bb : Block) : Option (MLIL × Bool) :=
  match blockLast bb with
  | (i, .goto d) =>
      match chaseGoto m.instrs m.instrs.length d with
      | none => none
      | some (fi, _) =>
          if fi = d then some (m, false)
          else some (replaceInstr m i (.goto fi), true)
  | _ => some (m, false)

/-- One scan of `pass_clear_goto` over a snapshot of the block list. -/
def scanGotoAux : MLIL → Bool → List Block → Option (MLIL × Bool)
  | m, upd, [] => some (m, upd)
  | m, upd, bb :: rest =>
      match foldClearGoto m bb with
      | none => none
      | some (m', u) => scanGotoAux m' (upd || u) rest

/-- One full scan of `pass_clear_goto`. -/
def scanClearGoto (m : MLIL) : Option (MLIL × Bool) :=
  scanGotoAux m false (basicBlocks m.instrs)

/-- Per-block action of `pass_clear_if`: if the block's terminator is a
conditional branch, resolve each arm through the jump chain
(`get_final_target`); if either resolved sink differs from the current arm,
rebuild the branch with a duplicated condition and the resolved arms. -/
def foldClearIf (m : MLIL) (bb : Block) : Option (MLIL × Bool) :=
  match blockLast bb with
  | (i, .ifExpr c t f) =>
      match chaseGoto m.instrs m.instrs.length t,
            chaseGoto m.instrs m.instrs.length f with
      | some (ti, _), some (fi, _) =>
          if ti ≠ t ∨ fi ≠ f then
            some (replaceInstr m i (.ifExpr (copyExpr c) ti fi), true)
          else some (m, false)
      | _, _ => none
  | _ => some (m, false)

/-- One scan of `pass_clear_if` over a snapshot of the block list. -/
def scanIfAux : MLIL → Bool → List Block → Option (MLIL × Bool)
  | m, upd, [] => some (m, upd)
  | m, upd, bb :: rest =>
      match foldClearIf m bb with
      | none => none
      | some (m', u) => scanIfAux m' (upd || u) rest

/-- One full scan of `pass_clear_if`. -/
def scanClearIf (m : MLIL) : Option (MLIL × Bool) :=
  scanIfAux m false (basicBlocks m.instrs)

/-- The bounded fixed-point driver shared by all four passes:
`for _ in range(fuel): scan; if updated: finalize; generate_ssa_form else:
break`, followed by a final `finalize(); generate_ssa_form()`.  `none`
propagates a Python exception / nontermination out of the pass. -/
def fixLoop (scan : MLIL → Option (MLIL × Bool)) : Nat → MLIL → Option MLIL
  | 0, m => some (finalizeRegen m)
  | fuel + 1, m =>
      match scan m with
      | none => none
      | some (m', upd) =>
          if upd then fixLoop scan fuel (finalizeRegen m')
          else some (finalizeRegen m')

/-- `AnalysisContext`: the Binary Ninja analysis context, of which the
passes use `analysis_context.mlil` and `analysis_context.function.mlil`
(either may be absent). -/
structure AnalysisContext where
  mlil : Option MLIL
  functionMlil : Option MLIL
deriving DecidableEq, Repr

/-- `pass_clear_const_if`: fold constant-condition branches to jumps, to a
fixed point, at most `len(mlil.basic_blocks)` scans.  An absent MLIL is not
guarded against: `len(None.basic_blocks)` raises (modelled as `none`). -/
def pass_clear_const_if (ctx : AnalysisContext) : Option AnalysisContext :=
  match ctx.mlil with
  | none => none
  | some m =>
      (fixLoop scanConstIf (numBlocks m) m).map fun m' =>
        { ctx with mlil := some m' }

/-- `pass_clear_goto`: compress jump chains, to a fixed point, at most
`len(mlil.basic_blocks)` scans.  No guard for an absent MLIL. -/
def pass_clear_goto (ctx : AnalysisContext) : Option AnalysisContext :=
  match ctx.mlil with
  | none => none
  | some m =>
      (fixLoop scanClearGoto (numBlocks m) m).map fun m' =>
        { ctx with mlil := some m' }

/-- `pass_clear_if`: redirect branch arms through jump chains, to a fixed
point, at most `len(mlil.basic_blocks)` scans.  No guard for an absent
MLIL. -/
def pass_clear_if (ctx : AnalysisContext) : Option AnalysisContext :=
  match ctx.mlil with
  | none => none
  | some m =>
      (fixLoop scanClearIf (numBlocks m) m).map fun m' =>
        { ctx with mlil := some m' }

/-- The predecessor-redirection loop of `merge_block`: a jump predecessor is
replaced by a jump to the merged entry (`startLabel`); a branch predecessor
whose true arm equals `entry` (the index of the first merged instruction,
`instrs[0].instr_index`) is rebuilt with the true arm redirected, and
symmetrically for the false arm; a branch with neither arm equal to `entry`
raises `Exception("Invalid if condition")`, modelled as `none`.  The source
loop has no branch for other instruction kinds, so they are skipped. -/
def redirectPreds (entry startLabel : Nat) : MLIL → List (Nat × Expr) → Option MLIL
  | m, [] => some m
  | m, (pi, pe) :: rest =>
      match pe with
      | .goto _ =>
          redirectPreds entry startLabel
            (replaceInstr m pi (.goto startLabel)) rest
      | .ifExpr c t f =>
          if t = entry then
            redirectPreds entry startLabel
              (replaceInstr m pi (.ifExpr (copyExpr c) startLabel f)) rest
          else if f = entry then
            redirectPreds entry startLabel
              (replaceInstr m pi (.ifExpr (copyExpr c) t startLabel)) rest
          else none
      | _ => redirectPreds entry startLabel m rest

/-- `merge_block(mlil, instrs, pre_instrs)`: if any predecessor terminator
is neither a jump nor a branch, log an error and return `False` with no IR
mutation; if `instrs` is empty return `False`; otherwise mark a label at the
append cursor, append deep copies of `instrs`, redirect every predecessor to
the label, and return `True`.  `none` models the `Exception` raised during
predecessor redirection. -/
def mergeBlock (m : MLIL) (instrs preInstrs : List (Nat × Expr)) :
    Option (Bool × MLIL) :=
  if (preInstrs.all fun p => p.2.isJumpOrBranch) = false then
    some (false, logError m)
  else
    match instrs with
    | [] => some (false, m)
    | i0 :: _ =>
        let startLabel := m.instrs.length
        let m1 := { m with instrs := m.instrs ++ instrs.map fun p => copyExpr p.2 }
        (redirectPreds i0.1 startLabel m1 preInstrs).map fun m2 => (true, m2)

/-- Per-block action of `pass_merge_block`: for a block ending in a jump,
look up the successor block at the jump target; if the successor has exactly
one incoming block and ends in a jump or a return, attempt `merge_block`
with the block's body (minus terminator) plus the whole successor, and the
terminators of the block's incoming blocks.  Returns the new state and
whether a merge succeeded (which `break`s the scan).  A missing successor
block is `none`: the source dereferences `next_block.start` before its
`None` check. -/
def mergeStep (m : MLIL) (block : Block) : Option (MLIL × Bool) :=
  match blockLast block with
  | (_, .goto d) =>
      match getBasicBlockAt m.instrs d with
      | none => none
      | some nb =>
          if (incomingBlocks m.instrs (blockStart nb)).length = 1
              ∧ (blockLast nb).2.isJumpOrRet = true then
            let preInstrs := (incomingBlocks m.instrs (blockStart block)).map blockLast
            match mergeBlock m (block.dropLast ++ nb) preInstrs with
            | none => none
            | some (true, m') => some (m', true)
            | some (false, m') => some (m', false)
          else some (m, false)
  | _ => some (m, false)

/-- One scan of `pass_merge_block`: try `mergeStep` on each block in order;
a successful merge exits the scan immediately (`break`), a failed merge
continues with the state it left (possibly with an error logged). -/
def scanMergeAux : MLIL → List Block → Option (MLIL × Bool)
  | m, [] => some (m, false)
  | m, block :: rest =>
      match mergeStep m block with
      | none => none
      | some (m', true) => some (m', true)
      | some (m', false) => scanMergeAux m' rest

/-- One full scan of `pass_merge_block` over a snapshot of the block list. -/
def scanMerge (m : MLIL) : Option (MLIL × Bool) :=
  scanMergeAux m (basicBlocks m.instrs)

/-- `pass_merge_block`: merge straight-line blocks to a fixed point, at most
`len(mlil.basic_blocks) * 2` scans; returns immediately when the MLIL is
absent (`if mlil is None: return`). -/
def pass_merge_block (ctx : AnalysisContext) : Option AnalysisContext :=
  match ctx.mlil with
  | none => some ctx
  | some m =>
      (fixLoop scanMerge (2 * numBlocks m) m).map fun m' =>
        { ctx with mlil := some m' }

/-- `pass_swap_if`: returns immediately when `function.mlil` is absent; the
rest of the pass traverses for branches whose condition compares a constant
on the left with a variable on the right, but its loop body is `pass` (and
its membership test compares an instruction against operation enums), so it
performs no mutation: a stub. -/
def pass_swap_if (ctx : AnalysisContext) : Option AnalysisContext :=
  match ctx.functionMlil with
  | none => some ctx
  | some _ => some ctx

/-- `pass_clear`: the full simplification cycle — fold constant branches,
compress jump chains, redirect branch arms, merge straight-line blocks, in
that order; exceptions propagate (`Option.bind`). -/
def pass_clear (ctx : AnalysisContext) : Option AnalysisContext :=
  (pass_clear_const_if ctx).bind fun c1 =>
    (pass_clear_goto c1).bind fun c2 =>
      (pass_clear_if c2).bind pass_merge_block

/-- A two-block function: block 0 is `goto 1`, block 1 is `return`.  Block 1
has exactly one incoming edge and ends in a return, so it is a straight-line
merge candidate for block 0. -/
def m0 : MLIL := ⟨[Expr.goto 1, Expr.ret], 0, 0⟩

/-- Analysis context wrapping `m0`. -/
def ctx0 : AnalysisContext := ⟨some m0, some m0⟩

/-- A function whose block 1 (`goto 3`) consists only of its terminator and
is reached by the true arm of the branch in block 0; block 3 (`return`) is
its merge candidate. -/
def mC2 : MLIL :=
  ⟨[Expr.ifExpr (Expr.var 0) 1 2, Expr.goto 3, Expr.ret, Expr.ret], 0, 0⟩

/-- Analysis context wrapping `mC2`. -/
def ctxC2 : AnalysisContext := ⟨some mC2, some mC2⟩

/-- A cyclic jump chain: instruction 0 is `goto 1` and instruction 1 is
`goto 0` (the spec's A→B→A hazard). -/
def cycIL : List Expr := [Expr.goto 1, Expr.goto 0]

/-- Analysis context wrapping the cyclic jump chain. -/
def ctxCyc : AnalysisContext := ⟨some ⟨cycIL, 0, 0⟩, some ⟨cycIL, 0, 0⟩⟩

/-- A three-block jump chain: `goto 1`, `goto 2`, `return`. -/
def m5 : MLIL := ⟨[Expr.goto 1, Expr.goto 2, Expr.ret], 0, 0⟩

/-- A branch whose true arm points into a jump chain: block 0 is
`if (var 0) then 1 else 2`, instruction 1 is `goto 2`, instruction 2 is
`return`. -/
def m6 : MLIL := ⟨[Expr.ifExpr (Expr.var 0) 1 2, Expr.goto 2, Expr.ret], 0, 0⟩

/-- An analysis context with no MLIL function at all. -/
def ctxN : AnalysisContext := ⟨none, none⟩

/-- The number of scans the bounded fixed-point driver actually performs:
the counting mirror of `fixLoop` (a scan is counted whether it rewrites,
finds the fixed point, or fails). -/
def fixLoopScans (scan : MLIL → Option (MLIL × Bool)) : Nat → MLIL → Nat
  | 0, _ => 0
  | fuel + 1, m =>
      match scan m with
      | none => 1
      | some (m', upd) =>
          if upd then 1 + fixLoopScans scan fuel (finalizeRegen m') else 1

/-- A deep copy is structurally equal to the original expression. -/
theorem copyExpr_eq (e : Expr) : copyExpr e = e := by
  induction e with
  | const c => rfl
  | var v => rfl
  | setVar v e ih => simp [copyExpr, ih]
  | goto d => rfl
  | ifExpr c t f ih => simp [copyExpr, ih]
  | ret => rfl

/-- The jump-chain chase never returns a jump: whatever it reaches is the
chain's sink, a non-goto instruction. -/
theorem chaseGoto_result_not_goto (il : List Expr) :
    ∀ (fuel idx fi : Nat) (e : Expr),
      chaseGoto il fuel idx = some (fi, e) → ∀ d', e ≠ Expr.goto d' := by
  intro fuel
  induction fuel with
  | zero => intro idx fi e h; simp [chaseGoto] at h
  | succ n ih =>
      intro idx fi e h d'
      unfold chaseGoto at h
      cases hg : il.get? idx with
      | none => rw [hg] at h; exact absurd h (by simp)
      | some e' =>
          rw [hg] at h
          cases e' with
          | goto d2 => exact ih d2 fi e h d'
          | const c => simp at h; rw [← h.2]; simp
          | var v => simp at h; rw [← h.2]; simp
          | setVar v e2 => simp at h; rw [← h.2]; simp
          | ifExpr c t f => simp at h; rw [← h.2]; simp
          | ret => simp at h; rw [← h.2]; simp

/-- The predecessor-redirection loop raises precisely when some predecessor
is a conditional branch with neither arm equal to the merged entry. -/
theorem redirectPreds_eq_none_iff (entry lbl : Nat) :
    ∀ (ps : List (Nat × Expr)) (m : MLIL),
      redirectPreds entry lbl m ps = none ↔
        ∃ p ∈ ps, ∃ c t f, p.2 = Expr.ifExpr c t f ∧ t ≠ entry ∧ f ≠ entry := by
  intro ps
  induction ps with
  | nil => intro m; simp [redirectPreds]
  | cons p rest ih =>
      intro m
      obtain ⟨pi, pe⟩ := p
      cases pe with
      | goto d => simp [redirectPreds, ih]
      | ifExpr c t f =>
          by_cases ht : t = entry
          · subst ht; simp [redirectPreds, ih]
          · by_cases hf : f = entry
            · subst hf; simp [redirectPreds, ih, ht]
            · simp [redirectPreds, ht, hf]
              exact Or.inl ⟨c, t, f, ⟨rfl, rfl, rfl⟩, ht, hf⟩
      | const c => simp [redirectPreds, ih]
      | var v => simp [redirectPreds, ih]
      | setVar v e => simp [redirectPreds, ih]
      | ret => simp [redirectPreds, ih]

/-- C1: the chain-following procedure (`optimize_goto` / `get_final_target`)
has no visited-set check: on the cyclic chain `goto 1, goto 0` the recursion
never returns at any depth (the chase is `none` for every fuel), and the
jump-chain pass consequently never detects, logs, and skips the cycle — it
fails to return at all instead of leaving the terminator unchanged. -/
theorem c1_goto_cycle_unbounded_recursion :
    (∀ fuel : Nat,
      chaseGoto cycIL fuel 0 = none ∧ chaseGoto cycIL fuel 1 = none)
    ∧ pass_clear_goto ctxCyc = none := by
  refine ⟨fun fuel => ?_, by decide⟩
  induction fuel with
  | zero => exact ⟨rfl, rfl⟩
  | succ n ih => exact ⟨ih.2, ih.1⟩

/-- C2 (amended): `merge_block` raises its fatal error if and only if some
conditional-branch predecessor has neither arm equal to the index of the
first instruction of the merged sequence (`instrs[0]`) — which is B's entry
only when B has instructions besides its terminator; when B consists solely
of its jump, the comparison point is C's entry instead. -/
theorem c2_fatal_error_iff_neither_arm_matches_merged_entry
    (m : MLIL) (instrs preInstrs : List (Nat × Expr))
    (i0 : Nat × Expr) (rest : List (Nat × Expr))
    (hall : (preInstrs.all fun p => p.2.isJumpOrBranch) = true)
    (hinstrs : instrs = i0 :: rest) :
    mergeBlock m instrs preInstrs = none ↔
      ∃ p ∈ preInstrs, ∃ c t f,
        p.2 = Expr.ifExpr c t f ∧ t ≠ i0.1 ∧ f ≠ i0.1 := by
  subst hinstrs
  simp [mergeBlock, hall, redirectPreds_eq_none_iff]

/-- C2 counterexample: in `mC2` the jump block B = `[(1, goto 3)]` has entry
index 1, and its only predecessor is the branch `if (var 0) then 1 else 2`
whose true arm equals B's entry — a consistent case — yet the merge pass
raises the fatal `Exception` (modelled as `none`), because the comparison is
made against the merged sequence's first instruction (index 3, C's entry),
not against B's entry. -/
theorem c2_consistent_case_still_fatal :
    blockStart [(1, Expr.goto 3)] = 1
    ∧ incomingBlocks mC2.instrs 1 = [[(0, Expr.ifExpr (Expr.var 0) 1 2)]]
    ∧ pass_merge_block ctxC2 = none := by decide

/-- C2 witness: the amended criterion applied to the concrete merge attempt
arising from `mC2` (merged sequence starting at index 3, branch predecessor
with arms 1 and 2). -/
theorem c2_fatal_error_witness :
    mergeBlock mC2 [(3, Expr.ret)] [(0, Expr.ifExpr (Expr.var 0) 1 2)] = none :=
  (c2_fatal_error_iff_neither_arm_matches_merged_entry mC2
      [(3, Expr.ret)] [(0, Expr.ifExpr (Expr.var 0) 1 2)]
      (3, Expr.ret) [] (by decide) rfl).mpr
    ⟨(0, Expr.ifExpr (Expr.var 0) 1 2), by decide,
      Expr.var 0, 1, 2, rfl, by decide, by decide⟩

/-- C3: a predecessor terminator that is neither a jump nor a branch makes
`merge_block` log an error and return `False` with the instruction list
untouched (no label marked, nothing appended or replaced), and a failed
merge attempt lets the scan continue with the remaining blocks instead of
aborting. -/
theorem c3_bad_predecessor_abandons_merge
    (m : MLIL) (instrs preInstrs : List (Nat × Expr))
    (hbad : (preInstrs.all fun p => p.2.isJumpOrBranch) = false) :
    mergeBlock m instrs preInstrs = some (false, logError m)
    ∧ (logError m).instrs = m.instrs
    ∧ ∀ (m1 m2 : MLIL) (b : Block) (rest : List Block),
        mergeStep m1 b = some (m2, false) →
          scanMergeAux m1 (b :: rest) = scanMergeAux m2 rest := by
  refine ⟨by simp [mergeBlock, hbad], rfl, ?_⟩
  intro m1 m2 b rest h
  simp [scanMergeAux, h]

/-- C3 witness: a merge attempt whose predecessor list contains a return
terminator is abandoned with an error logged and no IR change. -/
theorem c3_bad_predecessor_witness :
    mergeBlock mC2 [(3, Expr.ret)] [(2, Expr.ret)] = some (false, logError mC2) :=
  (c3_bad_predecessor_abandons_merge mC2 [(3, Expr.ret)] [(2, Expr.ret)]
    (by decide)).1

/-- C4: for a block whose terminator is a branch on a literal constant, the
folder replaces the terminator with a jump to the true arm when the constant
is 1, a jump to the false arm when it is 0, and leaves the block unchanged
for any other constant; blocks whose terminator is not a branch on a
literal constant are left unchanged. -/
theorem c4_constant_branch_folding (m : MLIL) (bb : Block) (i : Nat) (e : Expr)
    (hlast : blockLast bb = (i, e)) :
    (∀ c t f, e = Expr.ifExpr (Expr.const c) t f →
        (c = 1 → foldConstIf m bb = (replaceInstr m i (Expr.goto t), true))
      ∧ (c = 0 → foldConstIf m bb = (replaceInstr m i (Expr.goto f), true))
      ∧ (c ≠ 1 → c ≠ 0 → foldConstIf m bb = (m, false)))
    ∧ ((∀ c t f, e ≠ Expr.ifExpr (Expr.const c) t f) →
        foldConstIf m bb = (m, false)) := by
  constructor
  · rintro c t f rfl
    refine ⟨fun h1 => ?_, fun h0 => ?_, fun h1 h0 => ?_⟩
    · subst h1; simp [foldConstIf, hlast]
    · subst h0; norm_num [foldConstIf, hlast]
    · simp [foldConstIf, hlast, h1, h0]
  · intro hne
    unfold foldConstIf
    rw [hlast]
    cases e with
    | ifExpr c t f =>
        cases c with
        | const cv => exact absurd rfl (hne cv t f)
        | var v => rfl
        | setVar v e2 => rfl
        | goto d => rfl
        | ifExpr c2 t2 f2 => rfl
        | ret => rfl
    | const c => rfl
    | var v => rfl
    | setVar v e2 => rfl
    | goto d => rfl
    | ret => rfl

/-- C4 witness: a branch on constant 1 is folded to a jump to its true arm. -/
theorem c4_constant_branch_witness :
    foldConstIf m0 [(0, Expr.ifExpr (Expr.const 1) 5 6)]
      = (replaceInstr m0 0 (Expr.goto 5), true) :=
  ((c4_constant_branch_folding m0 [(0, Expr.ifExpr (Expr.const 1) 5 6)] 0
      (Expr.ifExpr (Expr.const 1) 5 6) rfl).1 1 5 6 rfl).1 rfl

/-- C5: for a block whose terminator is a jump, the compressor resolves the
jump chain from the target to its sink — a non-jump instruction — and
replaces the terminator with a jump straight to the sink exactly when the
sink's index differs from the current target, leaving it unchanged when it
coincides. -/
theorem c5_jump_chain_compression (m : MLIL) (bb : Block) (i d fi : Nat)
    (e : Expr) (hlast : blockLast bb = (i, Expr.goto d))
    (hchase : chaseGoto m.instrs m.instrs.length d = some (fi, e)) :
    (∀ d', e ≠ Expr.goto d')
    ∧ (fi ≠ d →
        foldClearGoto m bb = some (replaceInstr m i (Expr.goto fi), true))
    ∧ (fi = d → foldClearGoto m bb = some (m, false)) := by
  refine ⟨chaseGoto_result_not_goto m.instrs _ _ _ _ hchase, fun hne => ?_,
    fun heq => ?_⟩
  · simp [foldClearGoto, hlast, hchase, hne]
  · subst heq; simp [foldClearGoto, hlast, hchase]

/-- C5 witness: in `m5` the chain `goto 1 → goto 2 → return` is compressed
so block 0's terminator jumps directly to the sink at index 2. -/
theorem c5_jump_chain_witness :
    foldClearGoto m5 [(0, Expr.goto 1)]
      = some (replaceInstr m5 0 (Expr.goto 2), true) :=
  (c5_jump_chain_compression m5 [(0, Expr.goto 1)] 0 1 2 Expr.ret rfl
    (by decide)).2.1 (by decide)

/-- C6: for a block whose terminator is a branch, the redirector resolves
each arm independently to its non-jump sink; it rebuilds the terminator —
with a duplicated condition structurally equal to the original — exactly
when at least one resolved sink differs from the current arm, and leaves
the block unchanged when both coincide (the original condition is never
mutated: the new branch carries a fresh copy). -/
theorem c6_branch_target_redirect (m : MLIL) (bb : Block) (i t f ti fi : Nat)
    (c et ef : Expr) (hlast : blockLast bb = (i, Expr.ifExpr c t f))
    (ht : chaseGoto m.instrs m.instrs.length t = some (ti, et))
    (hf : chaseGoto m.instrs m.instrs.length f = some (fi, ef)) :
    copyExpr c = c
    ∧ (∀ d', et ≠ Expr.goto d')
    ∧ (∀ d', ef ≠ Expr.goto d')
    ∧ (ti ≠ t ∨ fi ≠ f →
        foldClearIf m bb
          = some (replaceInstr m i (Expr.ifExpr (copyExpr c) ti fi), true))
    ∧ (ti = t → fi = f → foldClearIf m bb = some (m, false)) := by
  refine ⟨copyExpr_eq c, chaseGoto_result_not_goto m.instrs _ _ _ _ ht,
    chaseGoto_result_not_goto m.instrs _ _ _ _ hf, fun hne => ?_,
    fun het hef => ?_⟩
  · simp [foldClearIf, hlast, ht, hf, hne]
  · subst het; subst hef; simp [foldClearIf, hlast, ht, hf]

/-- C6 witness: in `m6` the branch's true arm points at `goto 2`, so the
terminator is rebuilt as a branch on a copied condition with the true arm
redirected to the sink at index 2. -/
theorem c6_branch_target_witness :
    foldClearIf m6 [(0, Expr.ifExpr (Expr.var 0) 1 2)]
      = some (replaceInstr m6 0
          (Expr.ifExpr (copyExpr (Expr.var 0)) 2 2), true) :=
  (c6_branch_target_redirect m6 [(0, Expr.ifExpr (Expr.var 0) 1 2)] 0 1 2 2 2
    (Expr.var 0) Expr.ret Expr.ret rfl (by decide) (by decide)).2.2.2.1
    (Or.inl (by decide))

/-- C7: a successful merge immediately exits the current scan — the blocks
after it are not examined at all — and the driver re-derives indices and
metadata (`finalize`; `generate_ssa_form`) before the next scan begins, so
no second structural merge can act on stale indices within one scan. -/
theorem c7_single_merge_per_scan (m m' : MLIL) (b : Block) (rest : List Block)
    (h : mergeStep m b = some (m', true)) :
    scanMergeAux m (b :: rest) = some (m', true)
    ∧ ∀ (scan : MLIL → Option (MLIL × Bool)) (n : Nat) (s s' : MLIL),
        scan s = some (s', true) →
          fixLoop scan (n + 1) s = fixLoop scan n (finalizeRegen s') := by
  refine ⟨by simp [scanMergeAux, h], fun scan n s s' hs => ?_⟩
  simp [fixLoop, hs]

/-- C7 witness: merging `m0`'s two blocks succeeds at the first block and
the scan stops there even though another block follows. -/
theorem c7_single_merge_witness :
    scanMergeAux m0 [[(0, Expr.goto 1)], [(1, Expr.ret)]]
      = some (⟨[Expr.goto 1, Expr.ret, Expr.ret], 0, 0⟩, true) :=
  (c7_single_merge_per_scan m0 ⟨[Expr.goto 1, Expr.ret, Expr.ret], 0, 0⟩
    [(0, Expr.goto 1)] [[(1, Expr.ret)]] (by decide)).1

/-- C8: the fixed-point driver never performs more scans than its fuel —
instantiated at each pass's cap: the block count for the three rewriting
passes and twice the block count for the block merger; a scan that applies
zero rewrites ends the loop immediately (one final `finalize` /
`generate_ssa_form` and no further scan), and after any scan that did
rewrite, `finalize` and metadata regeneration are applied before the next
scan. -/
theorem c8_bounded_fixed_point (m : MLIL) :
    (∀ (scan : MLIL → Option (MLIL × Bool)) (fuel : Nat) (s : MLIL),
        fixLoopScans scan fuel s ≤ fuel)
    ∧ fixLoopScans scanConstIf (numBlocks m) m ≤ numBlocks m
    ∧ fixLoopScans scanClearGoto (numBlocks m) m ≤ numBlocks m
    ∧ fixLoopScans scanClearIf (numBlocks m) m ≤ numBlocks m
    ∧ fixLoopScans scanMerge (2 * numBlocks m) m ≤ 2 * numBlocks m
    ∧ (∀ (scan : MLIL → Option (MLIL × Bool)) (fuel : Nat) (s s' : MLIL),
        scan s = some (s', false) →
          fixLoop scan (fuel + 1) s = some (finalizeRegen s'))
    ∧ (∀ (scan : MLIL → Option (MLIL × Bool)) (fuel : Nat) (s s' : MLIL),
        scan s = some (s', true) →
          fixLoop scan (fuel + 1) s = fixLoop scan fuel (finalizeRegen s')) := by
  have hb : ∀ (scan : MLIL → Option (MLIL × Bool)) (fuel : Nat) (s : MLIL),
      fixLoopScans scan fuel s ≤ fuel := by
    intro scan fuel
    induction fuel with
    | zero => intro s; simp [fixLoopScans]
    | succ n ih =>
        intro s
        unfold fixLoopScans
        cases scan s with
        | none => exact Nat.succ_le_succ (Nat.zero_le n)
        | some p =>
            obtain ⟨s', upd⟩ := p
            cases upd with
            | false => exact Nat.succ_le_succ (Nat.zero_le n)
            | true =>
                show 1 + fixLoopScans scan n (finalizeRegen s') ≤ n + 1
                have := ih (finalizeRegen s')
                omega
  refine ⟨hb, hb _ _ _, hb _ _ _, hb _ _ _, hb _ _ _,
    fun scan fuel s s' hs => ?_, fun scan fuel s s' hs => ?_⟩
  · simp [fixLoop, hs]
  · simp [fixLoop, hs]

/-- C8 witness: on `m0` the constant-branch pass's loop stays within its
cap, and a rewrite-free scan exits after a single finalize. -/
theorem c8_bounded_fixed_point_witness :
    fixLoopScans scanConstIf (numBlocks m0) m0 ≤ numBlocks m0
    ∧ fixLoop scanConstIf 1 m0 = some (finalizeRegen m0) :=
  ⟨(c8_bounded_fixed_point m0).2.1,
    (c8_bounded_fixed_point m0).2.2.2.2.2.1 scanConstIf 0 m0 m0 (by decide)⟩

/-- C9: the full simplification cycle is not idempotent.  On the two-block
function `m0` (`goto 1`; `return`) the merger appends a copy of the
successor, never removes the merged-away blocks, and still sees the dead
pair as a merge candidate on every later scan, so its loop only stops at
the iteration cap; a second run of `pass_clear` therefore keeps appending
(6 instructions grow to 18): the second run's structure differs from the
first run's. -/
theorem c9_second_run_changes_structure :
    ((pass_clear ctx0).bind pass_clear).map (fun c => c.mlil.map MLIL.instrs)
      ≠ (pass_clear ctx0).map (fun c => c.mlil.map MLIL.instrs) := by decide

/-- C10: when the analysis context has no MLIL function, the block merger
(`if mlil is None: return`) and the stub swap pass return the context
unchanged without error, while the other three passes have no such guard
and fail (the attribute access on `None` raises, modelled as `none`). -/
theorem c10_none_mlil_guard (ctx : AnalysisContext)
    (hm : ctx.mlil = none) (hf : ctx.functionMlil = none) :
    pass_merge_block ctx = some ctx
    ∧ pass_swap_if ctx = some ctx
    ∧ pass_clear_const_if ctx = none
    ∧ pass_clear_goto ctx = none
    ∧ pass_clear_if ctx = none := by
  simp [pass_merge_block, pass_swap_if, pass_clear_const_if, pass_clear_goto,
    pass_clear_if, hm, hf]

/-- C10 witness: the guard behavior at the concrete empty context. -/
theorem c10_none_mlil_witness :
    pass_merge_block ctxN = some ctxN
    ∧ pass_swap_if ctxN = some ctxN
    ∧ pass_clear_const_if ctxN = none
    ∧ pass_clear_goto ctxN = none
    ∧ pass_clear_if ctxN = none :=
  c10_none_mlil_guard ctxN rfl rfl
